import Mathlib

/-!
Verification development for the client-side state store in `src/store.ts`.
The store holds bulletin-board entries, inquiries, settings (with rolling
images and three profile image URLs), and member companies; it mirrors part
of its state to local storage and part to a remote table service.  External
effects (the clock, remote calls, the text-generation client) are passed in
explicitly as parameters; each operation below is a direct translation of
the corresponding callback in `store.ts`.
-/

namespace KpiiStore

/-- Modelled from the spec: `types.ts` is not part of the provided sources.
A rolling promotional banner image — id, image URL, optional link
(spec §3, RollingImage). -/
structure RollingImage where
  id : Int
  url : String
  link : Option String
deriving DecidableEq

/-- Modelled from the spec: a bulletin post — id, category, title, content,
author, date (spec §3, BBSEntry). -/
structure BBSEntry where
  id : Int
  category : String
  title : String
  content : String
  author : String
  date : String
deriving DecidableEq

/-- Input to `addBbsEntry`: a `BBSEntry` without `id` and `date`
(the TypeScript `Omit` type at store.ts:133). -/
structure BBSEntryInput where
  category : String
  title : String
  content : String
  author : String
deriving DecidableEq

/-- Status of an inquiry (spec §3, Inquiry). -/
inductive InquiryStatus where
  | pending
  | answered
deriving DecidableEq

/-- Modelled from the spec: a user question — id, content, date, status,
optional answer (spec §3, Inquiry). -/
structure Inquiry where
  id : Int
  content : String
  date : String
  status : InquiryStatus
  answer : Option String
deriving DecidableEq

/-- Modelled from the spec: the singleton settings value — sidebar flag,
ordered rolling images, three profile image URLs, admin password
(spec §3 and the initial state at store.ts:47-54). -/
structure AppSettings where
  showSidebar : Bool
  rollingImages : List RollingImage
  founderImageUrl : String
  chairmanImageUrl : String
  logoImageUrl : String
  adminPassword : String
deriving DecidableEq

/-- Modelled from the spec: a member company row — id, order index,
business fields, creation and update timestamps (spec §3, MemberCompany).
`name` stands for the business fields, which the store never inspects. -/
structure MemberCompany where
  id : String
  order_index : Int
  name : String
  created_at : String
  updated_at : String
deriving DecidableEq

/-- Input to `addMemberCompany`: a `MemberCompany` without `id`,
`created_at`, `updated_at` (the `Omit` type at store.ts:256). -/
structure MemberCompanyInput where
  order_index : Int
  name : String
deriving DecidableEq

/-! ### Bulletin board operations (store.ts:133-150) -/

/-- The entry built inside `addBbsEntry` (store.ts:134-138): the input
spread plus `id := Date.now()` and the current date string.  The clock
value and the date string are environment inputs. -/
def mkBbsEntry (now : Int) (dateStr : String) (e : BBSEntryInput) : BBSEntry :=
  { id := now
    category := e.category
    title := e.title
    content := e.content
    author := e.author
    date := dateStr }

/-- `addBbsEntry` (store.ts:133-140): prepend the new entry. -/
def addBbsEntry (now : Int) (dateStr : String) (e : BBSEntryInput)
    (prev : List BBSEntry) : List BBSEntry :=
  mkBbsEntry now dateStr e :: prev

/-- A sequence of `addBbsEntry` calls, each with its own clock value and
date string, run left to right against an initial collection. -/
def runAddBbsSeq (calls : List (Int × String × BBSEntryInput))
    (init : List BBSEntry) : List BBSEntry :=
  calls.foldl (fun st c => addBbsEntry c.1 c.2.1 c.2.2 st) init

/-- `updateBbsEntry` (store.ts:142-146): merge updates into the matching
entry.  The partial update is modelled as a function applied to the
matching entry, the spread `\x7b ...entry, ...updates \x7d`. -/
def updateBbsEntry (id : Int) (updates : BBSEntry → BBSEntry)
    (prev : List BBSEntry) : List BBSEntry :=
  prev.map fun entry => if entry.id = id then updates entry else entry

/-- `deleteBbsEntry` (store.ts:148-150). -/
def deleteBbsEntry (id : Int) (prev : List BBSEntry) : List BBSEntry :=
  prev.filter fun entry => entry.id ≠ id

/-! ### Inquiry operations (store.ts:196-214) -/

/-- `answerInquiry` (store.ts:210-214): on the matching inquiry, store the
answer and set status to answered. -/
def answerInquiry (id : Int) (answer : String) (prev : List Inquiry) :
    List Inquiry :=
  prev.map fun inq =>
    if inq.id = id then { inq with answer := some answer, status := .answered }
    else inq

/-! ### Member company operations (store.ts:256-310)

Each remote call's outcome is a parameter: the row-or-error shape returned
by the table client (`\x7b data, error \x7d`). -/

/-- Outcome of a remote row call: `data` and `error`, as destructured at
store.ts:258 and store.ts:277. -/
structure RemoteRowResult where
  data : Option MemberCompany
  error : Option String
deriving DecidableEq

/-- The comparator `(a, b) => a.order_index - b.order_index` as an order
relation (store.ts:266, store.ts:287). -/
def memberLe (a b : MemberCompany) : Prop :=
  a.order_index ≤ b.order_index

instance : DecidableRel memberLe := fun a b =>
  inferInstanceAs (Decidable (a.order_index ≤ b.order_index))

instance : IsTotal MemberCompany memberLe :=
  ⟨fun a b => Int.le_total a.order_index b.order_index⟩

instance : IsTrans MemberCompany memberLe :=
  ⟨fun _ _ _ h h' => le_trans h h'⟩

/-- The `.sort((a, b) => a.order_index - b.order_index)` call: a stable
sort by ascending order index, modelled by insertion sort (stable, so it
computes the same list as the JavaScript stable sort). -/
def sortByOrderIndex (l : List MemberCompany) : List MemberCompany :=
  l.insertionSort memberLe

/-- Alert text at store.ts:270. -/
def addFailAlert : String := "회원사 추가에 실패했습니다."

/-- Alert text at store.ts:292. -/
def updateFailAlert : String := "회원사 수정에 실패했습니다."

/-- Alert text at store.ts:308. -/
def deleteFailAlert : String := "회원사 삭제에 실패했습니다."

/-- `addMemberCompany` (store.ts:256-272): insert remotely; on error,
alert and leave state unchanged; on a returned row, append it and re-sort.
Returns the new collection and the alert message, if any.  The input
`_company` is only sent to the remote call and never enters local state. -/
def addMemberCompany (_company : MemberCompanyInput) (res : RemoteRowResult)
    (prev : List MemberCompany) : List MemberCompany × Option String :=
  match res.error with
  | some _ => (prev, some addFailAlert)
  | none =>
    match res.data with
    | some row => (sortByOrderIndex (prev ++ [row]), none)
    | none => (prev, none)

/-- `updateMemberCompany` (store.ts:275-294): update remotely; on error,
alert and leave state unchanged; on a returned row, replace the matching
company with the response row and re-sort. -/
def updateMemberCompany (id : String) (res : RemoteRowResult)
    (prev : List MemberCompany) : List MemberCompany × Option String :=
  match res.error with
  | some _ => (prev, some updateFailAlert)
  | none =>
    match res.data with
    | some row =>
        (sortByOrderIndex (prev.map fun c => if c.id = id then row else c), none)
    | none => (prev, none)

/-- `deleteMemberCompany` (store.ts:297-310): delete remotely; on error,
alert and leave state unchanged; on success, drop the matching company. -/
def deleteMemberCompany (id : String) (remoteError : Option String)
    (prev : List MemberCompany) : List MemberCompany × Option String :=
  match remoteError with
  | some _ => (prev, some deleteFailAlert)
  | none => (prev.filter fun c => c.id ≠ id, none)

/-! ### askAI (store.ts:216-253)

The whole body runs inside try/catch/finally: the try block may throw the
missing-key error or the empty-response error, or fail in the network call;
the catch block rethrows every failure as one generic service error; the
finally block always clears the busy flag. -/

/-- Message thrown at store.ts:221 when no API key is configured. -/
def configErrorMsg : String := "Gemini API 키가 설정되지 않았습니다."

/-- Message thrown at store.ts:243 when the response has no text. -/
def emptyResponseMsg : String := "AI 응답을 받지 못했습니다."

/-- Message of the generic error rethrown by the catch block at
store.ts:249. -/
def serviceErrorMsg : String :=
  "AI 서비스에 일시적인 문제가 발생했습니다. 잠시 후 다시 시도해주세요."

/-- The template-literal prompt built at store.ts:226-231. -/
def buildPrompt (question : String) : String :=
  "당신은 한국 공공조달 혁신 연구원(KPII)의 AI 어시스턴트입니다.\n다음 질문에 대해 간결하고 전문적으로 답변해주세요:\n\n질문: "
    ++ question
    ++ "\n\n답변은 3-4문장으로 요약하고, 필요하면 링크나 추가 정보를 제안해주세요."

/-- What a call to `askAI` produces: the value returned to (or error
raised at) the caller, whether the text-generation network call was
performed, and the busy flag (`isSyncing`) after the call finishes. -/
structure AskAIOutcome where
  result : Except String String
  networkCalled : Bool
  isSyncingAfter : Bool

/-- The try block of `askAI` (store.ts:217-246).  `apiKey` is the
environment variable (`none` when unset; the empty string is also falsy in
`if (!apiKey)`).  `gen` is the text-generation client: it returns the
response text, or an error when the network call fails.  The second
component records whether the network call was performed. -/
def askAITry (apiKey : Option String) (gen : String → Except String String)
    (question : String) : Except String String × Bool :=
  match apiKey with
  | none => (Except.error configErrorMsg, false)
  | some key =>
    if key.isEmpty then (Except.error configErrorMsg, false)
    else
      match gen (buildPrompt question) with
      | Except.error e => (Except.error e, true)
      | Except.ok text =>
        if text.isEmpty then (Except.error emptyResponseMsg, true)
        else (Except.ok text, true)

/-- `askAI` (store.ts:216-253): run the try block; the catch block turns
every failure into the generic service error; the finally block clears the
busy flag in all cases. -/
def askAI (apiKey : Option String) (gen : String → Except String String)
    (question : String) : AskAIOutcome :=
  let r := askAITry apiKey gen question
  { result :=
      match r.1 with
      | Except.ok t => Except.ok t
      | Except.error _ => Except.error serviceErrorMsg
    networkCalled := r.2
    isSyncingAfter := false }

/-! ### Profile images (store.ts:161-190) -/

/-- The three profile image kinds accepted by `updateProfileImage`. -/
inductive ProfileKind where
  | founder
  | chairman
  | logo
deriving DecidableEq

/-- The computed-key write `settings[type + "ImageUrl"] = url` at
store.ts:164. -/
def setProfileImageField (s : AppSettings) (k : ProfileKind) (url : String) :
    AppSettings :=
  match k with
  | .founder => { s with founderImageUrl := url }
  | .chairman => { s with chairmanImageUrl := url }
  | .logo => { s with logoImageUrl := url }

/-- Read the settings field that `setProfileImageField` writes. -/
def getProfileImageField (s : AppSettings) (k : ProfileKind) : String :=
  match k with
  | .founder => s.founderImageUrl
  | .chairman => s.chairmanImageUrl
  | .logo => s.logoImageUrl

/-- What a call to `updateProfileImage` produces: the settings afterwards,
whether a remote update was attempted, and whether an error alert was
shown. -/
structure ProfileUpdateOutcome where
  settings : AppSettings
  remoteAttempted : Bool
  alerted : Bool

/-- `updateProfileImage` (store.ts:161-190): set the local field first
(optimistic); when no settings row id is known, stop there; otherwise issue
the remote update, alerting on failure (both the `error` result and a
thrown exception alert) without touching the already-updated local value. -/
def updateProfileImage (settingsRowId : Option String)
    (remote : Except String Unit) (k : ProfileKind) (url : String)
    (s : AppSettings) : ProfileUpdateOutcome :=
  let s1 := setProfileImageField s k url
  match settingsRowId with
  | none => { settings := s1, remoteAttempted := false, alerted := false }
  | some _ =>
    match remote with
    | Except.ok _ => { settings := s1, remoteAttempted := true, alerted := false }
    | Except.error _ => { settings := s1, remoteAttempted := true, alerted := true }

/-! ### Rolling images (store.ts:152-159) -/

/-- `updateRollingImage` (store.ts:152-159): on the matching image set the
url and, when `link` was passed, the link (`link ?? img.link`); all other
images and settings fields are rebuilt unchanged. -/
def updateRollingImage (id : Int) (url : String) (link : Option String)
    (s : AppSettings) : AppSettings :=
  { s with
    rollingImages := s.rollingImages.map fun img =>
      if img.id = id then
        { img with
          url := url
          link := match link with | some l => some l | none => img.link }
      else img }

/-! ### Remote settings overlay during initialization (store.ts:77-93) -/

/-- A row of the remote settings table: id plus three nullable image URL
columns (store.ts:88-92, spec §6). -/
structure SettingsRow where
  id : String
  logo_image_url : Option String
  founder_image_url : Option String
  chairman_image_url : Option String
deriving DecidableEq

/-- The overlay at store.ts:86-91: each image URL falls back to the
already-merged local value when the remote column is null. -/
def overlaySupabaseSettings (prev : AppSettings) (row : SettingsRow) :
    AppSettings :=
  { prev with
    logoImageUrl := row.logo_image_url.getD prev.logoImageUrl
    founderImageUrl := row.founder_image_url.getD prev.founderImageUrl
    chairmanImageUrl := row.chairman_image_url.getD prev.chairmanImageUrl }

/-- The `if (!error && data)` step at store.ts:85-93: on a successful fetch
overlay the row and capture its id; otherwise leave settings and the
tracked row id unchanged (`none`). -/
def applySupabaseSettings (prev : AppSettings) (fetched : Option SettingsRow) :
    AppSettings × Option String :=
  match fetched with
  | some row => (overlaySupabaseSettings prev row, some row.id)
  | none => (prev, none)

/-! ### Local cache serialization (store.ts:60-126)

`JSON.stringify`/`JSON.parse` of the three state pieces are modelled as
encoders into a JSON value type and decoders back; optional fields
(`link`, `answer`) are omitted by `JSON.stringify` when undefined and read
back as absent. -/

/-- A JSON value, as produced by `JSON.parse`. -/
inductive Json where
  | null : Json
  | bool : Bool → Json
  | num : Int → Json
  | str : String → Json
  | arr : List Json → Json
  | obj : List (String × Json) → Json

/-- Field lookup in a JSON object's key-value list. -/
def lookupKv : List (String × Json) → String → Option Json
  | [], _ => none
  | (k, v) :: rest, key => if k = key then some v else lookupKv rest key

/-- Field access on a JSON value. -/
def Json.getField : Json → String → Option Json
  | .obj kvs, key => lookupKv kvs key
  | _, _ => none

/-- Read a JSON string. -/
def Json.asStr : Json → Option String
  | .str s => some s
  | _ => none

/-- Read a JSON number. -/
def Json.asNum : Json → Option Int
  | .num n => some n
  | _ => none

/-- Read a JSON boolean. -/
def Json.asBool : Json → Option Bool
  | .bool b => some b
  | _ => none

/-- Serialize a bulletin entry. -/
def encodeBBSEntry (e : BBSEntry) : Json :=
  .obj [("id", .num e.id), ("category", .str e.category),
        ("title", .str e.title), ("content", .str e.content),
        ("author", .str e.author), ("date", .str e.date)]

/-- Parse a bulletin entry. -/
def decodeBBSEntry (j : Json) : Option BBSEntry := do
  let id ← (j.getField "id").bind Json.asNum
  let category ← (j.getField "category").bind Json.asStr
  let title ← (j.getField "title").bind Json.asStr
  let content ← (j.getField "content").bind Json.asStr
  let author ← (j.getField "author").bind Json.asStr
  let date ← (j.getField "date").bind Json.asStr
  pure ⟨id, category, title, content, author, date⟩

/-- Serialize an inquiry status. -/
def encodeStatus : InquiryStatus → String
  | .pending => "pending"
  | .answered => "answered"

/-- Parse an inquiry status. -/
def decodeStatus (s : String) : Option InquiryStatus :=
  if s = "pending" then some .pending
  else if s = "answered" then some .answered
  else none

/-- Serialize an inquiry; an undefined `answer` is omitted by
`JSON.stringify`. -/
def encodeInquiry (i : Inquiry) : Json :=
  .obj ([("id", .num i.id), ("content", .str i.content),
         ("date", .str i.date), ("status", .str (encodeStatus i.status))] ++
        match i.answer with
        | some a => [("answer", .str a)]
        | none => [])

/-- Parse an inquiry; a missing `answer` field reads back as absent. -/
def decodeInquiry (j : Json) : Option Inquiry := do
  let id ← (j.getField "id").bind Json.asNum
  let content ← (j.getField "content").bind Json.asStr
  let date ← (j.getField "date").bind Json.asStr
  let status ← ((j.getField "status").bind Json.asStr).bind decodeStatus
  pure ⟨id, content, date, status, (j.getField "answer").bind Json.asStr⟩

/-- Serialize a rolling image; an undefined `link` is omitted. -/
def encodeRollingImage (img : RollingImage) : Json :=
  .obj ([("id", .num img.id), ("url", .str img.url)] ++
        match img.link with
        | some l => [("link", .str l)]
        | none => [])

/-- Parse a rolling image. -/
def decodeRollingImage (j : Json) : Option RollingImage := do
  let id ← (j.getField "id").bind Json.asNum
  let url ← (j.getField "url").bind Json.asStr
  pure ⟨id, url, (j.getField "link").bind Json.asStr⟩

/-- Serialize a JSON array elementwise. -/
def encodeListWith (f : α → Json) (l : List α) : Json :=
  .arr (l.map f)

/-- Parse the elements of a JSON array in order; any element failure fails
the whole parse. -/
def decodeJsonList (f : Json → Option α) : List Json → Option (List α)
  | [] => some []
  | j :: rest =>
    match f j with
    | none => none
    | some x =>
      match decodeJsonList f rest with
      | none => none
      | some xs => some (x :: xs)

/-- Parse a JSON array elementwise. -/
def decodeListWith (f : Json → Option α) : Json → Option (List α)
  | .arr xs => decodeJsonList f xs
  | _ => none

/-- Serialize the settings value (store.ts:121). -/
def encodeSettings (s : AppSettings) : Json :=
  .obj [("showSidebar", .bool s.showSidebar),
        ("rollingImages", encodeListWith encodeRollingImage s.rollingImages),
        ("founderImageUrl", .str s.founderImageUrl),
        ("chairmanImageUrl", .str s.chairmanImageUrl),
        ("logoImageUrl", .str s.logoImageUrl),
        ("adminPassword", .str s.adminPassword)]

/-- The parsed settings object as used by the shallow merge at
store.ts:73: each top-level key is independently present or absent. -/
structure PartialAppSettings where
  showSidebar : Option Bool
  rollingImages : Option (List RollingImage)
  founderImageUrl : Option String
  chairmanImageUrl : Option String
  logoImageUrl : Option String
  adminPassword : Option String

/-- Parse a stored settings object into its present top-level keys;
anything but an object is a parse failure. -/
def decodeSettingsPartial : Json → Option PartialAppSettings
  | .obj kvs =>
    some
      { showSidebar := (lookupKv kvs "showSidebar").bind Json.asBool
        rollingImages :=
          (lookupKv kvs "rollingImages").bind (decodeListWith decodeRollingImage)
        founderImageUrl := (lookupKv kvs "founderImageUrl").bind Json.asStr
        chairmanImageUrl := (lookupKv kvs "chairmanImageUrl").bind Json.asStr
        logoImageUrl := (lookupKv kvs "logoImageUrl").bind Json.asStr
        adminPassword := (lookupKv kvs "adminPassword").bind Json.asStr }
  | _ => none

/-- The shallow merge `\x7b ...prev, ...parsed \x7d` at store.ts:73: keys
present in the parsed object override the defaults. -/
def mergeSettings (prev : AppSettings) (p : PartialAppSettings) : AppSettings :=
  { showSidebar := p.showSidebar.getD prev.showSidebar
    rollingImages := p.rollingImages.getD prev.rollingImages
    founderImageUrl := p.founderImageUrl.getD prev.founderImageUrl
    chairmanImageUrl := p.chairmanImageUrl.getD prev.chairmanImageUrl
    logoImageUrl := p.logoImageUrl.getD prev.logoImageUrl
    adminPassword := p.adminPassword.getD prev.adminPassword }

/-- The three local cache slots (`kpii_bbs_data`, `kpii_settings`,
`kpii_inquiries`); a slot holds a stored JSON value or is absent. -/
structure LocalStorage where
  bbs : Option Json
  settings : Option Json
  inquiries : Option Json

/-- The in-memory state mirrored to the local cache. -/
structure ContainerState where
  bbsData : List BBSEntry
  settings : AppSettings
  inquiries : List Inquiry

/-- The save effect (store.ts:116-126): serialize the three state pieces
into their cache slots. -/
def saveEffect (st : ContainerState) : LocalStorage :=
  { bbs := some (encodeListWith encodeBBSEntry st.bbsData)
    settings := some (encodeSettings st.settings)
    inquiries := some (encodeListWith encodeInquiry st.inquiries) }

/-- Restore step for the bulletin slot (store.ts:69). -/
def restoreBbs (st : ContainerState) (j : Json) : Option ContainerState :=
  (decodeListWith decodeBBSEntry j).map fun l => { st with bbsData := l }

/-- Restore step for the inquiry slot (store.ts:70). -/
def restoreInquiries (st : ContainerState) (j : Json) : Option ContainerState :=
  (decodeListWith decodeInquiry j).map fun l => { st with inquiries := l }

/-- Restore step for the settings slot (store.ts:71-74): parse and
shallow-merge onto the current settings. -/
def restoreSettings (st : ContainerState) (j : Json) : Option ContainerState :=
  (decodeSettingsPartial j).map fun p =>
    { st with settings := mergeSettings st.settings p }

/-- Run one restore step: an absent slot is skipped; a parse failure
throws, so every later step is skipped (the surrounding try/catch at
store.ts:62-105) and the failure is recorded. -/
def runRestoreStep (acc : ContainerState × Bool) (slot : Option Json)
    (apply : ContainerState → Json → Option ContainerState) :
    ContainerState × Bool :=
  match acc with
  | (st, true) => (st, true)
  | (st, false) =>
    match slot with
    | none => (st, false)
    | some j =>
      match apply st j with
      | some st2 => (st2, false)
      | none => (st, true)

/-- The local part of `loadFromStorageAndSupabase` (store.ts:64-74): the
three slots are restored in source order onto the initial defaults.  The
boolean records whether a parse failure escaped to the catch handler. -/
def loadLocal (init : ContainerState) (ls : LocalStorage) :
    ContainerState × Bool :=
  let a := runRestoreStep (init, false) ls.bbs restoreBbs
  let b := runRestoreStep a ls.inquiries restoreInquiries
  runRestoreStep b ls.settings restoreSettings

/-! ## Serialization round-trip lemmas -/

/-- Parsing an encoded bulletin entry gives it back. -/
theorem decodeBBSEntry_encode (e : BBSEntry) :
    decodeBBSEntry (encodeBBSEntry e) = some e := rfl

/-- Parsing an encoded inquiry gives it back. -/
theorem decodeInquiry_encode (i : Inquiry) :
    decodeInquiry (encodeInquiry i) = some i := by
  obtain ⟨id, content, date, status, answer⟩ := i
  cases status <;> cases answer <;> rfl

/-- Parsing an encoded rolling image gives it back. -/
theorem decodeRollingImage_encode (img : RollingImage) :
    decodeRollingImage (encodeRollingImage img) = some img := by
  obtain ⟨id, url, link⟩ := img
  cases link <;> rfl

/-- Parsing an encoded array gives the list back, given the elementwise
round trip. -/
theorem decodeListWith_encode (f : α → Json) (g : Json → Option α)
    (h : ∀ x, g (f x) = some x) (l : List α) :
    decodeListWith g (encodeListWith f l) = some l := by
  induction l with
  | nil => rfl
  | cons a t ih =>
    simp only [decodeListWith, encodeListWith, List.map_cons, decodeJsonList,
      h a] at *
    rw [ih]

/-- Parsing encoded settings yields every top-level key, present. -/
theorem decodeSettingsPartial_encode (s : AppSettings) :
    decodeSettingsPartial (encodeSettings s) = some
      { showSidebar := some s.showSidebar
        rollingImages := some s.rollingImages
        founderImageUrl := some s.founderImageUrl
        chairmanImageUrl := some s.chairmanImageUrl
        logoImageUrl := some s.logoImageUrl
        adminPassword := some s.adminPassword } := by
  have h1 : decodeSettingsPartial (encodeSettings s) = some
      { showSidebar := some s.showSidebar
        rollingImages :=
          decodeListWith decodeRollingImage
            (encodeListWith encodeRollingImage s.rollingImages)
        founderImageUrl := some s.founderImageUrl
        chairmanImageUrl := some s.chairmanImageUrl
        logoImageUrl := some s.logoImageUrl
        adminPassword := some s.adminPassword } := rfl
  rw [h1, decodeListWith_encode _ _ decodeRollingImage_encode]

/-- Merging a parsed object that has every key overrides every default. -/
theorem mergeSettings_full (prev s : AppSettings) :
    mergeSettings prev
      { showSidebar := some s.showSidebar
        rollingImages := some s.rollingImages
        founderImageUrl := some s.founderImageUrl
        chairmanImageUrl := some s.chairmanImageUrl
        logoImageUrl := some s.logoImageUrl
        adminPassword := some s.adminPassword } = s := rfl

/-! ## Theorems -/

/-- A sample bulletin input used in concrete instances. -/
def bbsInput0 : BBSEntryInput :=
  { category := "notice", title := "t", content := "c", author := "a" }

/-- C1 (amended): every sequence of `addBbsEntry` calls yields the new
entries in newest-first order (each prepended ahead of all earlier ones),
and the generated ids — the clock values at the calls — are unique
whenever those clock values are pairwise distinct.  (Two calls within the
same clock millisecond receive the same id, so uniqueness is not
unconditional.) -/
theorem addBbsEntry_newestFirst_and_uniqueIds_of_distinct_times
    (calls : List (Int × String × BBSEntryInput)) (init : List BBSEntry) :
    runAddBbsSeq calls init =
      (calls.map fun c => mkBbsEntry c.1 c.2.1 c.2.2).reverse ++ init
    ∧ ((calls.map fun c => c.1).Nodup →
        ((calls.map fun c => mkBbsEntry c.1 c.2.1 c.2.2).map fun e => e.id).Nodup) := by
  constructor
  · induction calls generalizing init with
    | nil => rfl
    | cons c cs ih =>
      show runAddBbsSeq cs (mkBbsEntry c.1 c.2.1 c.2.2 :: init) = _
      rw [ih]
      simp
  · intro h
    simpa [List.map_map, Function.comp, mkBbsEntry] using h

/-- Witness for C1 at two calls with distinct clock values 5 and 6. -/
theorem addBbs_uniqueIds_witness :
    ((([((5 : Int), ("2024-01-01", bbsInput0)),
        ((6 : Int), ("2024-01-02", bbsInput0))]).map
        fun c => mkBbsEntry c.1 c.2.1 c.2.2).map fun e => e.id).Nodup :=
  (addBbsEntry_newestFirst_and_uniqueIds_of_distinct_times _ []).2 (by decide)

/-- Counterexample to C1 as stated: two `addBbsEntry` calls made at the
same clock value 5 (the same millisecond) generate the duplicate ids
`[5, 5]`, so the generated ids are not always unique. -/
theorem addBbsEntry_duplicateIds_counterexample :
    ¬ (((runAddBbsSeq
          [((5 : Int), ("2024-01-01", bbsInput0)),
           ((5 : Int), ("2024-01-01", bbsInput0))] []).map
          fun e => e.id).Nodup) := by
  decide

/-- C4: when a settings row id is known and the remote update fails, an
alert is shown and the settings field for the kind still holds the new
url — the optimistic local value is not rolled back. -/
theorem updateProfileImage_remoteFailure_keeps_optimistic_value
    (rid e url : String) (k : ProfileKind) (s : AppSettings) :
    (updateProfileImage (some rid) (Except.error e) k url s).alerted = true
    ∧ getProfileImageField
        (updateProfileImage (some rid) (Except.error e) k url s).settings k = url
    ∧ (updateProfileImage (some rid) (Except.error e) k url s).settings =
        setProfileImageField s k url := by
  refine ⟨rfl, ?_, rfl⟩
  cases k <;> rfl

/-- C6: `updateProfileImage` for the logo with no known settings row id
sets `logoImageUrl` to the url and never attempts a remote call. -/
theorem updateProfileImage_logo_noRowId_local_only
    (remote : Except String Unit) (url : String) (s : AppSettings) :
    (updateProfileImage none remote ProfileKind.logo url s).settings.logoImageUrl = url
    ∧ (updateProfileImage none remote ProfileKind.logo url s).remoteAttempted = false :=
  ⟨rfl, rfl⟩

/-- C7: when the fetched settings row has a null image URL column, the
overlay applied during load keeps the already-merged local value for that
field — it never becomes null; this holds for each of the three image URL
fields. -/
theorem overlay_null_fields_keep_merged_values
    (prev : AppSettings) (i : String) (f c l : Option String) :
    (applySupabaseSettings prev (some ⟨i, none, f, c⟩)).1.logoImageUrl =
      prev.logoImageUrl
    ∧ (applySupabaseSettings prev (some ⟨i, l, none, c⟩)).1.founderImageUrl =
        prev.founderImageUrl
    ∧ (applySupabaseSettings prev (some ⟨i, l, f, none⟩)).1.chairmanImageUrl =
        prev.chairmanImageUrl :=
  ⟨rfl, rfl, rfl⟩

/-- C3 (amended): `askAI` with no configured API key raises the
configuration error inside the try block, performs no network call, and
clears the busy flag — but the error surfaced to the caller is the generic
service error, because the catch-all handler rewraps every failure. -/
theorem askAI_noKey_generic_error_no_network
    (gen : String → Except String String) (q : String) :
    (askAITry none gen q).1 = Except.error configErrorMsg
    ∧ (askAI none gen q).result = Except.error serviceErrorMsg
    ∧ (askAI none gen q).networkCalled = false
    ∧ (askAI none gen q).isSyncingAfter = false
    ∧ (∀ apiKey, (askAI apiKey gen q).isSyncingAfter = false) :=
  ⟨rfl, rfl, rfl, rfl, fun _ => rfl⟩

/-- Counterexample to C3 as stated: with no API key the error the caller
receives is the generic service error, which is not the configuration
error — the catch block at store.ts:247-249 rewraps it. -/
theorem askAI_noKey_not_config_error :
    (askAI none (fun _ => Except.ok "answer") "q").result =
      Except.error serviceErrorMsg
    ∧ serviceErrorMsg ≠ configErrorMsg :=
  ⟨rfl, by decide⟩

/-- C2: each member-company mutation with a failing remote call leaves the
in-memory collection exactly unchanged and surfaces an alert; conversely
the collection can change only when the remote call succeeded (no error,
and for insert/update a returned response row). -/
theorem memberCompany_mutations_failure_leaves_state_unchanged
    (prev : List MemberCompany) (d : Option MemberCompany) (e cid : String)
    (inp : MemberCompanyInput) :
    addMemberCompany inp ⟨d, some e⟩ prev = (prev, some addFailAlert)
    ∧ updateMemberCompany cid ⟨d, some e⟩ prev = (prev, some updateFailAlert)
    ∧ deleteMemberCompany cid (some e) prev = (prev, some deleteFailAlert)
    ∧ (∀ res : RemoteRowResult, (addMemberCompany inp res prev).1 ≠ prev →
        res.error = none ∧ res.data ≠ none)
    ∧ (∀ res : RemoteRowResult, (updateMemberCompany cid res prev).1 ≠ prev →
        res.error = none ∧ res.data ≠ none)
    ∧ (∀ r : Option String, (deleteMemberCompany cid r prev).1 ≠ prev →
        r = none) := by
  refine ⟨rfl, rfl, rfl, ?_, ?_, ?_⟩
  · rintro ⟨d', e'⟩ h
    cases e' with
    | some e' => exact absurd rfl h
    | none =>
      cases d' with
      | none => exact absurd rfl h
      | some row => exact ⟨rfl, by simp⟩
  · rintro ⟨d', e'⟩ h
    cases e' with
    | some e' => exact absurd rfl h
    | none =>
      cases d' with
      | none => exact absurd rfl h
      | some row => exact ⟨rfl, by simp⟩
  · rintro r h
    cases r with
    | some e' => exact absurd rfl h
    | none => rfl

/-- A sample member-company row used in concrete instances. -/
def mc0 : MemberCompany :=
  { id := "a", order_index := 1, name := "n", created_at := "", updated_at := "" }

/-- A sample member-company input used in concrete instances. -/
def mcInput0 : MemberCompanyInput := { order_index := 1, name := "n" }

/-- Witness for C2: a successful insert into the empty collection changes
the state, so its remote result had no error and carried a row. -/
theorem memberCompany_mutations_witness :
    RemoteRowResult.error ⟨some mc0, none⟩ = none
    ∧ RemoteRowResult.data ⟨some mc0, none⟩ ≠ none :=
  (memberCompany_mutations_failure_leaves_state_unchanged [] (some mc0) "e" "a"
      mcInput0).2.2.2.1 ⟨some mc0, none⟩ (by decide)

/-- C5: after a remotely successful `addMemberCompany`, the collection is
sorted ascending by order index, is a permutation of the previous
collection plus exactly the response row (whatever the input object was),
and no alert is shown. -/
theorem addMemberCompany_success_sorted_one_new_row
    (inp : MemberCompanyInput) (prev : List MemberCompany) (row : MemberCompany) :
    List.Sorted memberLe (addMemberCompany inp ⟨some row, none⟩ prev).1
    ∧ (addMemberCompany inp ⟨some row, none⟩ prev).1.Perm (prev ++ [row])
    ∧ (addMemberCompany inp ⟨some row, none⟩ prev).2 = none := by
  refine ⟨?_, ?_, rfl⟩
  · exact List.sorted_insertionSort memberLe _
  · exact List.perm_insertionSort memberLe _

/-- C8: `answerInquiry` sets the matching inquiry's status to answered and
stores the answer text, and applying it twice yields the same final state
as applying it once. -/
theorem answerInquiry_sets_answered_and_idempotent
    (id : Int) (text : String) (l : List Inquiry) :
    (∀ inq ∈ answerInquiry id text l, inq.id = id →
        inq.status = InquiryStatus.answered ∧ inq.answer = some text)
    ∧ answerInquiry id text (answerInquiry id text l) = answerInquiry id text l := by
  constructor
  · intro inq hmem hid
    rcases List.mem_map.1 hmem with ⟨orig, horig, heq⟩
    by_cases h : orig.id = id
    · rw [if_pos h] at heq
      subst heq
      exact ⟨rfl, rfl⟩
    · rw [if_neg h] at heq
      subst heq
      exact absurd hid h
  · simp only [answerInquiry, List.map_map]
    refine List.map_congr_left fun a _ => ?_
    by_cases h : a.id = id <;> simp [Function.comp, h]

/-- A sample pending inquiry used in concrete instances. -/
def inquiry0 : Inquiry :=
  { id := 7, content := "q", date := "2024-01-01", status := .pending,
    answer := none }

/-- Witness for C8 on a one-element inquiry collection. -/
theorem answerInquiry_witness :
    ({ inquiry0 with answer := some "ans", status := .answered } : Inquiry).status
        = InquiryStatus.answered
    ∧ ({ inquiry0 with answer := some "ans", status := .answered } : Inquiry).answer
        = some "ans" :=
  (answerInquiry_sets_answered_and_idempotent 7 "ans" [inquiry0]).1
    { inquiry0 with answer := some "ans", status := .answered }
    (by decide) (by decide)

/-- C10: `updateRollingImage` with the link omitted sets the matching
image's url while keeping its previous link, leaves every other image
unchanged, and leaves every other settings field unchanged; and when no
image has the given id, the whole settings value is unchanged. -/
theorem updateRollingImage_frame_conditions
    (id : Int) (url : String) (s : AppSettings) :
    updateRollingImage id url none s =
      { s with rollingImages := s.rollingImages.map fun img =>
          if img.id = id then { img with url := url } else img }
    ∧ ∀ link, (∀ img ∈ s.rollingImages, img.id ≠ id) →
        updateRollingImage id url link s = s := by
  constructor
  · rfl
  · intro link h
    show { s with rollingImages := _ } = s
    have hmap :
        (s.rollingImages.map fun img =>
          if img.id = id then
            { img with
              url := url
              link := match link with | some x => some x | none => img.link }
          else img) = s.rollingImages := by
      calc (s.rollingImages.map fun img =>
              if img.id = id then
                { img with
                  url := url
                  link := match link with | some x => some x | none => img.link }
              else img)
          = s.rollingImages.map (fun img => img) :=
            List.map_congr_left fun a ha => if_neg (h a ha)
        _ = s.rollingImages := List.map_id _
    rw [hmap]

/-- A sample settings value used in concrete instances. -/
def settings0 : AppSettings :=
  { showSidebar := true, rollingImages := [⟨2, "u0", none⟩],
    founderImageUrl := "f", chairmanImageUrl := "c", logoImageUrl := "l",
    adminPassword := "p" }

/-- Witness for C10: updating an absent id leaves the settings unchanged. -/
theorem updateRollingImage_witness :
    updateRollingImage 1 "x" none settings0 = settings0 :=
  (updateRollingImage_frame_conditions 1 "x" settings0).2 none (by decide)

/-- C9: serializing the in-memory bulletin, settings, and inquiry state
via the save effect and reloading it into a fresh container (any initial
defaults, no remote overlay) reproduces the same state field-for-field,
with no parse failure. -/
theorem localCache_roundTrip (st init : ContainerState) :
    loadLocal init (saveEffect st) = (st, false) := by
  obtain ⟨bd, stgs, inqs⟩ := st
  have hbbs := decodeListWith_encode encodeBBSEntry decodeBBSEntry
    decodeBBSEntry_encode bd
  have hinq := decodeListWith_encode encodeInquiry decodeInquiry
    decodeInquiry_encode inqs
  have hset := decodeSettingsPartial_encode stgs
  simp [loadLocal, saveEffect, runRestoreStep, restoreBbs, restoreInquiries,
    restoreSettings, hbbs, hinq, hset, mergeSettings_full]

end KpiiStore
